import Mathlib

/-!
Shallow embedding of the data-cleaning and reconciliation engine of the
datajoint-dashboard repository.

Namespace `DJDash` embeds `datajoint_dashboard/callback_utils.py` (the engine
the spec describes) together with the `add_record` callback body of
`datajoint_dashboard/templates.py`.  Namespace `DJLegacy` embeds the divergent
field-coercion branches of the older duplicate `dj_dashboard/callback_utils.py`.

Records (Python dicts) are modelled as ordered association lists; Python dict
equality (order-insensitive, key/value based) is `dictEq`, list membership via
`==` is `dictMem`.  Python exceptions that the source does not catch are
modelled as `.error` results threaded to the caller; storage behaviour is an
explicit oracle (`Storage`) and every storage call is recorded in an `Op`
trace so that "no write happened" is a statement about the trace.
-/

namespace DJDash

/-- A typed or raw cell value as it appears in a GUI record: raw strings,
Python `None`, ints, floats (modelled as rationals), `datetime.date` and
`datetime.datetime` values. -/
inductive Value where
  | vstr (s : String)
  | vnull
  | vint (n : Int)
  | vfloat (q : Rat)
  | vdate (y m d : Nat)
  | vdatetime (y mo d h mi s : Nat)
  deriving DecidableEq

/-- A GUI/database record: a Python dict as an ordered association list. -/
abbrev Rec := List (String × Value)

/-- Column metadata: maps a column name to its type string
(`table.heading.attributes[k].type` in the source). -/
abbrev Attrs := String → String

/-- Python truthiness of a cell value (`not d[k]` in the source). -/
def Value.truthy : Value → Bool
  | .vstr s => !(s == "")
  | .vnull => false
  | .vint n => !(n == 0)
  | .vfloat q => !(q == 0)
  | .vdate _ _ _ => true
  | .vdatetime _ _ _ _ _ _ => true

/-- Python substring test `needle in hay`. -/
def strContains (hay needle : String) : Bool :=
  go needle.toList hay.toList
where
  go (n : List Char) : List Char → Bool
    | [] => n.isEmpty
    | c :: rest => n.isPrefixOf (c :: rest) || go n rest

/-- Keys of a record, in order (`d.keys()`). -/
def keysOf (r : Rec) : List String := r.map Prod.fst

/-- Python `d[k]` lookup, as the first binding of `k` (dicts have unique keys). -/
def rlookup (r : Rec) (k : String) : Option Value :=
  (r.find? (fun p => p.1 == k)).map Prod.snd

/-- Python dict equality `d1 == d2`: same key set, same value at every key. -/
def dictEq (a b : Rec) : Bool :=
  (keysOf a).all (fun k => rlookup a k == rlookup b k) &&
  (keysOf b).all (fun k => rlookup a k == rlookup b k)

/-- Python list membership `r in l` for a list of dicts. -/
def dictMem (r : Rec) (l : List Rec) : Bool := l.any (fun x => dictEq r x)

/-! ### Parsing primitives backing `int`, `float` and `datetime.strptime` -/

def digitsToNat (l : List Char) : Nat :=
  l.foldl (fun a c => a * 10 + (c.toNat - 48)) 0

def allDigits (l : List Char) : Bool := !(l.isEmpty) && l.all (fun c => c.isDigit)

/-- Parse one numeric field of a date/time format string: all digits, at most
`maxLen` of them, value within `[lo, hi]`. -/
def parseNatField (lo hi maxLen : Nat) (l : List Char) : Option Nat :=
  if allDigits l && decide (l.length ≤ maxLen) then
    let n := digitsToNat l
    if lo ≤ n && n ≤ hi then some n else none
  else none

/-- Split a character list on a separator character (the separators of the
source's formats are all single characters). -/
def splitOnChar (sep : Char) : List Char → List (List Char)
  | [] => [[]]
  | c :: rest =>
      match splitOnChar sep rest with
      | [] => [[]]
      | h :: t => if c == sep then [] :: h :: t else (c :: h) :: t

def isLeap (y : Nat) : Bool := y % 4 == 0 && (!(y % 100 == 0) || y % 400 == 0)

def daysInMonth (y m : Nat) : Nat :=
  if m == 2 then (if isLeap y then 29 else 28)
  else if m == 4 || m == 6 || m == 9 || m == 11 then 30
  else 31

/-- `datetime.strptime(s, "%Y-%m-%d")`, as a triple of numbers. -/
def parseDate (s : String) : Option (Nat × Nat × Nat) :=
  match splitOnChar ('-') s.toList with
  | [ys, ms, ds] => do
      let y ← parseNatField 1 9999 4 ys
      let m ← parseNatField 1 12 2 ms
      let d ← parseNatField 1 31 2 ds
      if d ≤ daysInMonth y m then some (y, m, d) else none
  | _ => none

/-- `"%H:%M:%S"` time component. -/
def parseTime (l : List Char) : Option (Nat × Nat × Nat) :=
  match splitOnChar (':') l with
  | [hs, ms, ss] => do
      let h ← parseNatField 0 23 2 hs
      let mi ← parseNatField 0 59 2 ms
      let se ← parseNatField 0 59 2 ss
      some (h, mi, se)
  | _ => none

/-- `datetime.strptime(s, "%Y-%m-%d" ++ sep ++ "%H:%M:%S")`: the two datetime
formats of the source differ only in the separator (`' '` or `'T'`). -/
def parseDT (sep : Char) (s : String) : Option Value :=
  match splitOnChar sep s.toList with
  | [dpart, tpart] => do
      let (y, mo, d) ← parseDate (String.mk dpart)
      let (h, mi, se) ← parseTime tpart
      some (.vdatetime y mo d h mi se)
  | _ => none

/-- Python `int(s)` on a string. -/
def parseIntStr (s : String) : Option Int :=
  match s.toList with
  | [] => none
  | '-' :: rest => if allDigits rest then some (-(digitsToNat rest : Int)) else none
  | '+' :: rest => if allDigits rest then some ((digitsToNat rest : Int)) else none
  | l => if allDigits l then some ((digitsToNat l : Int)) else none

/-- Python `float(s)` on a string (sign, integer part, optional fraction). -/
def parseFloatStr (s : String) : Option Rat :=
  match s.toList with
  | '-' :: rest => (core rest).map Neg.neg
  | '+' :: rest => core rest
  | l => core l
where
  core (t : List Char) : Option Rat :=
    match splitOnChar ('.') t with
    | [ip] => if allDigits ip then some ((digitsToNat ip : Int) : Rat) else none
    | [ip, fp] =>
        if (allDigits ip || ip.isEmpty) && (allDigits fp || fp.isEmpty)
            && !(ip.isEmpty && fp.isEmpty) then
          some ((digitsToNat ip : Rat)
            + (digitsToNat fp : Rat) / ((10 : Rat) ^ fp.length))
        else none
    | _ => none

/-! ### Field coercion (the per-column body of `clean_single_gui_record`) -/

/-- A coercion failure: `verr` is a caught `ValueError` (returned to the caller
as an error message string), `typeErr` an uncaught `TypeError` (e.g. `strptime`
applied to a non-string), which crashes the whole call. -/
inductive CErr where
  | verr (s : String)
  | typeErr
  deriving DecidableEq

/-- One iteration of the coercion loop of
`datajoint_dashboard.callback_utils.clean_single_gui_record` (lines 12-49):
empty-string blanking for non-varchar columns, falsy pass-through, then
dispatch on the column type string exactly as the source does. -/
def coerceField (attrs : Attrs) (k : String) (v : Value) : Except CErr Value :=
  let t := attrs k
  if !(strContains t ("varchar")) && v == .vstr "" then .ok .vnull
  else if !v.truthy then .ok v
  else if t == "date" then
    match v with
    | .vdate y m d => .ok (.vdate y m d)
    | .vstr s =>
        match parseDate s with
        | some (y, m, d) => .ok (.vdate y m d)
        | none => .error (.verr ("Invalid date value " ++ s))
    | _ => .error .typeErr
  else if t == "datetime" || t == "timestamp" then
    match v with
    | .vdatetime y mo d h mi se => .ok (.vdatetime y mo d h mi se)
    | .vstr s =>
        match parseDT (' ') s with
        | some w => .ok w
        | none =>
            match parseDT ('T') s with
            | some w => .ok w
            | none => .error (.verr ("Invalid " ++ t ++ " value " ++ s))
    | _ => .error .typeErr
  else if strContains t ("int") then
    match v with
    | .vstr s =>
        match parseIntStr s with
        | some n => .ok (.vint n)
        | none => .error (.verr ("Invalid int value " ++ s))
    | .vint n => .ok (.vint n)
    | .vfloat q => .ok (.vint (q.num / (q.den : Int)))
    | _ => .error .typeErr
  else if !(([("float" : String), "double", "decimal"].filter (fun p => strContains t p)).isEmpty) then
    match v with
    | .vstr s =>
        match parseFloatStr s with
        | some q => .ok (.vfloat q)
        | none => .error (.verr ("Invalid numeric value " ++ s))
    | .vint n => .ok (.vfloat (n : Rat))
    | .vfloat q => .ok (.vfloat q)
    | _ => .error .typeErr
  else .ok v

/-- The whole coercion loop: fields are processed in record order and the first
error stops the walk (the source returns the error message immediately). -/
def coerceRecord (attrs : Attrs) : Rec → Except CErr Rec
  | [] => .ok []
  | (k, v) :: rest =>
      match coerceField attrs k v with
      | .error e => .error e
      | .ok w =>
          match coerceRecord attrs rest with
          | .error e => .error e
          | .ok r => .ok ((k, w) :: r)

/-- Result of `clean_single_gui_record`: `dropped` is Python `None` (blank
placeholder row), `err` the returned error-message string, `ok` a cleaned
record, `crash` an uncaught exception. -/
inductive CleanResult where
  | dropped
  | err (s : String)
  | ok (r : Rec)
  | crash
  deriving DecidableEq

/-- Python truthiness of the `master_key` argument (`None` and `{}` are falsy). -/
def mkTruthy : Option Rec → Bool
  | none => false
  | some m => !(m.isEmpty)

/-- The values inspected by the meaningfulness test: all values when
`master_key` is falsy, otherwise the values of the fields whose key is not a
`master_key` key. -/
def relevantVals (mk : Option Rec) (d : Rec) : List Value :=
  if mkTruthy mk then
    (d.filter (fun p => !((keysOf (mk.getD [])).contains p.1))).map Prod.snd
  else d.map Prod.snd

/-- Python `set(l) == {''}`: at least one value and every value is `""`. -/
def valsAllBlank (l : List Value) : Bool :=
  !(l.isEmpty) && l.all (fun v => v == .vstr "")

/-- `datajoint_dashboard.callback_utils.clean_single_gui_record`:
meaningfulness test, in-order coercion, optional master-key injection. -/
def clean_single_gui_record (attrs : Attrs) (d : Rec) (mk : Option Rec)
    (addMk : Bool) : CleanResult :=
  if !(valsAllBlank (relevantVals mk d)) then
    match coerceRecord attrs d with
    | .error .typeErr => .crash
    | .error (.verr s) => .err s
    | .ok c =>
        if mkTruthy mk && addMk then
          let m := mk.getD []
          .ok (m ++ c.filter (fun p => !((keysOf m).contains p.1)))
        else .ok c
  else .dropped

/-- An element of the list built by `clean_gui_data`: the source appends the
record on success but also appends the error-message *string* when
`clean_single_gui_record` returns one (the `if clean_d:` truthiness test keeps
any non-empty string). -/
inductive Entry where
  | errStr (s : String)
  | record (r : Rec)
  deriving DecidableEq

/-- `datajoint_dashboard.callback_utils.clean_gui_data`: cleans every record,
keeping each truthy result (records and error strings alike); an uncaught
exception in any record aborts the whole call (`.error`). -/
def clean_gui_data (attrs : Attrs) (mk : Option Rec) (addMk : Bool) :
    List Rec → Except Unit (List Entry)
  | [] => .ok []
  | d :: rest =>
      match clean_single_gui_record attrs d mk addMk with
      | .crash => .error ()
      | .dropped => clean_gui_data attrs mk addMk rest
      | .err s =>
          (clean_gui_data attrs mk addMk rest).map
            (fun l => if s == "" then l else .errStr s :: l)
      | .ok r =>
          (clean_gui_data attrs mk addMk rest).map
            (fun l => if r.isEmpty then l else .record r :: l)

/-! ### The three-way diff of `update_part_table` -/

/-- `{k: v for k, v in d.items() if k in pks}`: project a record to the
primary-key columns, preserving field order. -/
def projectPK (pks : List String) (d : Rec) : Rec :=
  d.filter (fun p => pks.contains p.1)

/-- `pks_to_be_deleted = [pk for pk in old_data_pk if pk not in new_data_pk]`. -/
def pks_to_be_deleted (pks : List String) (old_data new_data : List Rec) : List Rec :=
  (old_data.map (projectPK pks)).filter
    (fun pk => !(dictMem pk (new_data.map (projectPK pks))))

/-- `new_records = [d for pk, d in zip(new_data_pk, new_data) if pk not in old_data_pk]`. -/
def new_records (pks : List String) (old_data new_data : List Rec) : List Rec :=
  (((new_data.map (projectPK pks)).zip new_data).filter
    (fun pd => !(dictMem pd.1 (old_data.map (projectPK pks))))).map Prod.snd

/-- `records_to_be_updated = [(pk, d) for pk, d in zip(new_data_pk, new_data)
if pk in old_data_pk and d not in old_data]`. -/
def records_to_be_updated (pks : List String) (old_data new_data : List Rec) :
    List (Rec × Rec) :=
  ((new_data.map (projectPK pks)).zip new_data).filter
    (fun pd => dictMem pd.1 (old_data.map (projectPK pks)) && !(dictMem pd.2 old_data))

/-- `[d for old_pk, d in zip(old_data_pk, old_data) if old_pk == pk][0]`:
the first stored row whose primary-key projection equals `pk` (`none` models
the `IndexError` of `[0]` on an empty list). -/
def matchOld (pks : List String) (old_data : List Rec) (pk : Rec) : Option Rec :=
  old_data.find? (fun d => dictEq (projectPK pks d) pk)

/-- The `(new row, matching old row)` pairs the update step walks. -/
def toUpdatePairs (pks : List String) (old_data new_data : List Rec) :
    List (Rec × Option Rec) :=
  (records_to_be_updated pks old_data new_data).map
    (fun pd => (pd.2, matchOld pks old_data pd.1))

/-- The per-field updates for one `(old_record, new_record)` pair: the source
zips `old_record.items()` with `new_record.items()` positionally and updates
field `old_k` to `new_v` whenever `old_k` is not a key column and the two
positional values differ.  Each element is `(field, old value, written value)`. -/
def fieldUpdates (pks : List String) (old_record new_record : Rec) :
    List (String × Value × Value) :=
  (old_record.zip new_record).filterMap (fun q =>
    if !(pks.contains q.1.1) && !(q.1.2 == q.2.2) then some (q.1.1, q.1.2, q.2.2)
    else none)

/-! ### Storage oracle and operation traces -/

/-- One storage call, as recorded in the trace of a reconciliation call. -/
inductive Op where
  | fetch
  | fetchOne
  | existsCheck
  | deleteOp (keys : List Rec)
  | insertMany (rows : List Rec)
  | insertOne (row : Rec)
  | updateField (key : Rec) (field : String) (value : Value)
  deriving DecidableEq

/-- Whether an operation writes to storage. -/
def Op.isWrite : Op → Bool
  | .fetch => false
  | .fetchOne => false
  | .existsCheck => false
  | _ => true

/-- The storage collaborator, as a deterministic oracle: the outcome of every
call the engine may issue.  `.error e` models the call raising an exception
with message `e`. -/
structure Storage where
  existsOutcome : Except String Bool
  fetchOneOutcome : Except String Rec
  fetchOutcome : Except String (List Rec)
  deleteOutcome : Except String Unit
  insertManyOutcome : Except String Unit
  insertOneOutcome : Rec → Except String Unit
  updateOutcome : Rec → String → Value → Except String Unit

/-- Python `repr` of a value, for the `f"{r}"` interpolations of the log. -/
def reprValue : Value → String
  | .vstr s => s
  | .vnull => "None"
  | .vint n => toString n
  | .vfloat q => toString q.num ++ "/" ++ toString q.den
  | .vdate y m d => toString y ++ "-" ++ toString m ++ "-" ++ toString d
  | .vdatetime y mo d h mi se =>
      toString y ++ "-" ++ toString mo ++ "-" ++ toString d ++ " " ++
      toString h ++ ":" ++ toString mi ++ ":" ++ toString se

/-- Python `repr` of a record. -/
def reprRec (r : Rec) : String :=
  "\x7b" ++ String.intercalate (", ")
    (r.map (fun p => p.1 ++ ": " ++ reprValue p.2)) ++ "\x7d"

/-! ### `update_part_table` (lines 130-209), step by step -/

/-- The delete step: one batch delete, batch-level failure reporting only. -/
def deleteStep (st : Storage) (tname : String) (keys : List Rec) :
    String × List Op :=
  if keys.isEmpty then ("", [])
  else
    match st.deleteOutcome with
    | .ok _ =>
        ("Successfully deleted records from part table " ++ tname ++ ".\n",
         [.deleteOp keys])
    | .error e =>
        ("Error deleting part table " ++ tname ++ ".: " ++ e ++ "\n",
         [.deleteOp keys])

/-- The log line the per-row insert fallback emits for row `r` (note that the
success line interpolates `str(e)` of the *batch* failure, as the source does). -/
def insertRowLine (st : Storage) (tname : String) (e : String) (r : Rec) : String :=
  match st.insertOneOutcome r with
  | .ok _ =>
      "Successfully inserted record in part table " ++ tname ++ ", " ++
      reprRec r ++ ": " ++ e ++ ".\n"
  | .error e2 =>
      "Error inserting record in part table " ++ tname ++ ", " ++
      reprRec r ++ ": " ++ e2 ++ ".\n"

/-- The insert step: one batch insert; if the batch call fails, every row is
retried individually and logged, regardless of the other rows' outcomes. -/
def insertStep (st : Storage) (tname : String) (rows : List Rec) :
    String × List Op :=
  if rows.isEmpty then ("", [])
  else
    match st.insertManyOutcome with
    | .ok _ =>
        ("Successfully inserted records into part table " ++ tname ++ ".\n",
         [.insertMany rows])
    | .error e =>
        (String.join (rows.map (insertRowLine st tname e)),
         .insertMany rows :: rows.map (fun r => .insertOne r))

/-- The per-field update log and operations for one pair, given the computed
`fieldUpdates`; each field update is attempted and reported independently. -/
def updatePairMsg (st : Storage) (tname : String) (pk : Rec)
    (upds : List (String × Value × Value)) : String × List Op :=
  (String.join (upds.map (fun u =>
      match st.updateOutcome pk u.1 u.2.2 with
      | .ok _ =>
          "Successful update in part table " ++ tname ++ " record " ++
          reprRec pk ++ " in field " ++ u.1 ++ ": " ++ reprValue u.2.1 ++
          " -> " ++ reprValue u.2.2 ++ ".\n"
      | .error e =>
          "Error when updating part table " ++ tname ++ " record " ++
          reprRec pk ++ ": " ++ e ++ ".\n")),
   upds.map (fun u => .updateField pk u.1 u.2.2))

/-- The update step over `records_to_be_updated`.  The third component is the
crash flag: `true` models the `IndexError` of `[0]` when no stored row matches
the key (the operations already performed are kept in the trace). -/
def updateStep (st : Storage) (tname : String) (pks : List String)
    (old_data : List Rec) : List (Rec × Rec) → String × List Op × Bool
  | [] => ("", [], false)
  | (pk, nrec) :: rest =>
      match matchOld pks old_data pk with
      | none => ("", [], true)
      | some orec =>
          let head := updatePairMsg st tname pk (fieldUpdates pks orec nrec)
          let t := updateStep st tname pks old_data rest
          (head.1 ++ t.1, head.2 ++ t.2.1, t.2.2)

/-- Python `new_data == old_data` after cleaning: list equality between the
cleaned entries (which may contain error strings) and the fetched rows. -/
def entryEqRec : Entry → Rec → Bool
  | .errStr _, _ => false
  | .record r, o => dictEq r o

def entriesEqRecs (es : List Entry) (os : List Rec) : Bool :=
  es.length == os.length && (es.zip os).all (fun p => entryEqRec p.1 p.2)

/-- The `new_data_pk` comprehension calls `.items()` on every entry: if any
entry is an error string this raises `AttributeError` (`none`). -/
def allRecs : List Entry → Option (List Rec)
  | [] => some []
  | .errStr _ :: _ => none
  | .record r :: rest => (allRecs rest).map (fun l => r :: l)

/-- `datajoint_dashboard.callback_utils.update_part_table`.  The first
component is the returned message (`.error` models an exception reaching the
caller), the second the ordered storage trace. -/
def update_part_table (st : Storage) (attrs : Attrs) (tname : String)
    (pks : List String) (master_key : Rec) (new_raw : List Rec) (msg : String) :
    Except String String × List Op :=
  match clean_gui_data attrs (some master_key) true new_raw with
  | .error _ => (.error ("TypeError"), [])
  | .ok entries =>
    -- the source's `type(new_data) == str` guard can never hold:
    -- `clean_gui_data` always returns a list
    match st.fetchOutcome with
    | .error e => (.error e, [.fetch])
    | .ok old_data =>
        if entriesEqRecs entries old_data then
          (.ok (msg ++ "Part table " ++ tname ++ " data unchanged.\n"), [.fetch])
        else
          match allRecs entries with
          | none => (.error ("AttributeError"), [.fetch])
          | some new_data =>
              let del := deleteStep st tname (pks_to_be_deleted pks old_data new_data)
              let ins := insertStep st tname (new_records pks old_data new_data)
              let upd := updateStep st tname pks old_data
                (records_to_be_updated pks old_data new_data)
              if upd.2.2 then
                (.error ("IndexError"), .fetch :: del.2 ++ ins.2 ++ upd.2.1)
              else
                (.ok (msg ++ del.1 ++ ins.1 ++ upd.1),
                 .fetch :: del.2 ++ ins.2 ++ upd.2.1)

/-! ### `update_table` (lines 103-127) -/

/-- The per-secondary-field loop of `update_table`: compares `new[f]` with
`old[f]` and issues an independent, individually caught single-field update for
every differing field.  The third component is the crash flag for a `KeyError`
on a missing field. -/
def updFieldsLoop (st : Storage) (pk : Rec) (new old : Rec) :
    List String → String × List Op × Bool
  | [] => ("", [], false)
  | f :: rest =>
      match rlookup new f, rlookup old f with
      | some nv, some ov =>
          if nv == ov then updFieldsLoop st pk new old rest
          else
            let head :=
              match st.updateOutcome pk f nv with
              | .ok _ =>
                  "Successfully updated field " ++ f ++ " from " ++
                  reprValue ov ++ " to " ++ reprValue nv ++ "!\n"
              | .error e => e ++ "\n"
            let t := updFieldsLoop st pk new old rest
            (head ++ t.1, .updateField pk f nv :: t.2.1, t.2.2)
      | _, _ => ("", [], true)

/-- `datajoint_dashboard.callback_utils.update_table`: master-table
single-record update.  The `type(new_data) != dict` guard cannot fire in the
embedding (`new_data` is a record by type). -/
def update_table (st : Storage) (attrs : Attrs) (secondaries : List String)
    (new_data : Rec) (pk : Rec) (msg : String) : Except String String × List Op :=
  if valsAllBlank (pk.map Prod.snd) then (.ok msg, [])
  else
    match st.existsOutcome with
    | .error e => (.error e, [.existsCheck])
    | .ok false => (.ok msg, [.existsCheck])
    | .ok true =>
        match clean_single_gui_record attrs new_data none false with
        | .crash => (.error ("TypeError"), [.existsCheck])
        | .err s => (.ok (msg ++ s ++ "\n"), [.existsCheck])
        | .dropped =>
            -- `new` is None: the fetch still runs, then `new[f]` raises
            match st.fetchOneOutcome with
            | .error e => (.error e, [.existsCheck, .fetchOne])
            | .ok _ =>
                if secondaries.isEmpty then (.ok msg, [.existsCheck, .fetchOne])
                else (.error ("TypeError"), [.existsCheck, .fetchOne])
        | .ok new =>
            match st.fetchOneOutcome with
            | .error e => (.error e, [.existsCheck, .fetchOne])
            | .ok old =>
                let t := updFieldsLoop st pk new old secondaries
                if t.2.2 then (.error ("KeyError"), .existsCheck :: .fetchOne :: t.2.1)
                else (.ok (msg ++ t.1), .existsCheck :: .fetchOne :: t.2.1)

/-! ### `add_record` (templates.py lines 641-658) -/

/-- `DashTemplate.get_pk`: cleans the entry again and projects it to the
master table's primary key; a `None` or error-string result has no `.items()`
and raises. -/
def get_pk (attrs : Attrs) (primary_key : List String) (entry : Rec) :
    Except Unit Rec :=
  match clean_single_gui_record attrs entry none false with
  | .ok c => .ok (projectPK primary_key c)
  | _ => .error ()

/-- The confirm branch of the `add_record` callback (master record only):
clean, compute the key, then inside one `try`: exists-check, warn if the key
exists, otherwise a single insert; every storage failure is caught. -/
def add_record (st : Storage) (attrs : Attrs) (primary_key : List String)
    (tname : String) (data0 : Rec) : Except String String × List Op :=
  match clean_single_gui_record attrs data0 none false with
  | .crash => (.error ("TypeError"), [])
  | .dropped => (.error ("AttributeError"), [])
  | .err _ => (.error ("AttributeError"), [])
  | .ok entry =>
      match get_pk attrs primary_key entry with
      | .error _ => (.error ("AttributeError"), [])
      | .ok pk =>
          match st.existsOutcome with
          | .error e =>
              (.ok ("Add message:" ++ "\nError inserting into " ++ tname ++ ": " ++ e),
               [.existsCheck])
          | .ok true =>
              (.ok ("Add message:" ++ "\nWarning: record " ++ reprRec pk ++
                " exists in database\n"), [.existsCheck])
          | .ok false =>
              match st.insertOneOutcome entry with
              | .ok _ =>
                  (.ok ("Add message:" ++ "\nSuccessfully inserted into " ++
                    tname ++ ".\n"), [.existsCheck, .insertOne entry])
              | .error e =>
                  (.ok ("Add message:" ++ "\nError inserting into " ++ tname ++
                    ": " ++ e), [.existsCheck, .insertOne entry])

end DJDash

namespace DJLegacy

open DJDash in
/-- The field-coercion branches of the older duplicate
`dj_dashboard.callback_utils.clean_single_gui_record` (lines 13-49): same
guards, but `datetime` tries only `"%Y-%m-%d %H:%M:%S"`, `timestamp` tries only
`"%Y-%m-%dT%H:%M:%S"`, and no already-typed value is passed through (strptime
on a non-string raises `TypeError`). -/
def coerceField (attrs : Attrs) (k : String) (v : Value) : Except CErr Value :=
  let t := attrs k
  if !(strContains t ("varchar")) && v == .vstr "" then .ok .vnull
  else if !v.truthy then .ok v
  else if t == "date" then
    match v with
    | .vstr s =>
        match parseDate s with
        | some (y, m, d) => .ok (.vdate y m d)
        | none => .error (.verr ("Invalid date value " ++ s))
    | _ => .error .typeErr
  else if t == "datetime" then
    match v with
    | .vstr s =>
        match parseDT (' ') s with
        | some w => .ok w
        | none => .error (.verr ("Invalid datetime value " ++ s))
    | _ => .error .typeErr
  else if t == "timestamp" then
    match v with
    | .vstr s =>
        match parseDT ('T') s with
        | some w => .ok w
        | none => .error (.verr ("Invalid timestamp value " ++ s))
    | _ => .error .typeErr
  else if strContains t ("int") then
    match v with
    | .vstr s =>
        match parseIntStr s with
        | some n => .ok (.vint n)
        | none => .error (.verr ("Invalid int value " ++ s))
    | .vint n => .ok (.vint n)
    | .vfloat q => .ok (.vint (q.num / (q.den : Int)))
    | _ => .error .typeErr
  else if !(([("float" : String), "double", "decimal"].filter (fun p => strContains t p)).isEmpty) then
    match v with
    | .vstr s =>
        match parseFloatStr s with
        | some q => .ok (.vfloat q)
        | none => .error (.verr ("Invalid numeric value " ++ s))
    | .vint n => .ok (.vfloat (n : Rat))
    | .vfloat q => .ok (.vfloat q)
    | _ => .error .typeErr
  else .ok v

end DJLegacy

namespace DJDash

/-! ### Concrete schemas, records and storages used in witnesses -/

/-- A small schema: integer key columns `id`, `s`, `n`; everything else varchar. -/
def exAttrs : Attrs := fun k =>
  if k == "id" then "int"
  else if k == "s" then "int"
  else if k == "n" then "int"
  else "varchar(64)"

def exC1pks : List String := ["id"]

def exC1old : List Rec :=
  [[("id", .vint 1), ("a", .vstr "x")], [("id", .vint 2), ("a", .vstr "y")]]

def exC1new : List Rec :=
  [[("id", .vint 2), ("a", .vstr "z")], [("id", .vint 3), ("a", .vstr "w")]]

/-- A storage in which every operation succeeds and the part table is empty. -/
def stBase : Storage where
  existsOutcome := .ok false
  fetchOneOutcome := .ok []
  fetchOutcome := .ok []
  deleteOutcome := .ok ()
  insertManyOutcome := .ok ()
  insertOneOutcome := fun _ => .ok ()
  updateOutcome := fun _ _ _ => .ok ()

def exMaster : Rec := [("id", .vint 7)]

/-- C3: a storage whose exists-check raises. -/
def stExistsDown : Storage :=
  { stBase with existsOutcome := .error ("db connection lost") }

/-- C4: storage holding exactly the row the cleaned input will equal. -/
def stC4 : Storage :=
  { stBase with fetchOutcome := .ok [[("id", .vint 7), ("note", .vstr "a")]] }

/-- C5: a storage in which the record key already exists. -/
def stC5 : Storage := { stBase with existsOutcome := .ok true }

def exC6row1 : Rec := [("id", .vint 7), ("s", .vint 1)]
def exC6row2 : Rec := [("id", .vint 7), ("s", .vint 2)]
def exC6row3 : Rec := [("id", .vint 7), ("s", .vint 3)]

/-- C6: batch insert fails; the individual retry fails on row 2 only. -/
def stC6 : Storage :=
  { stBase with
      insertManyOutcome := .error ("dup")
      insertOneOutcome := fun r => if r == exC6row2 then .error ("bad row") else .ok () }

/-- C3 witness: row fetched by `update_table` and targeted by the update. -/
def stC3W : Storage :=
  { stBase with
      existsOutcome := .ok true
      fetchOneOutcome := .ok [("id", .vint 1), ("note", .vstr "old")]
      updateOutcome := fun _ _ _ => .error ("write refused") }

/-! ### Association-list (Python dict) theory -/

theorem bool_eq_of_iff {a b : Bool} (h : a = true ↔ b = true) : a = b := by
  cases a <;> cases b <;> simp_all

theorem contains_iff (l : List String) (a : String) : l.contains a = true ↔ a ∈ l := by
  simp [List.contains]

theorem contains_false_iff (l : List String) (a : String) :
    l.contains a = false ↔ a ∉ l := by
  rw [← Bool.not_eq_true, contains_iff]

theorem rlookup_cons (p : String × Value) (r : Rec) (k : String) :
    rlookup (p :: r) k = if p.1 == k then some p.2 else rlookup r k := by
  by_cases h : (p.1 == k) = true
  · simp [rlookup, List.find?_cons_of_pos _ h, h]
  · simp [rlookup, List.find?_cons_of_neg _ h, h]

theorem rlookup_isSome (r : Rec) (k : String) :
    (rlookup r k).isSome = true ↔ k ∈ keysOf r := by
  induction r with
  | nil => simp [rlookup, keysOf]
  | cons p rest ih =>
      rw [rlookup_cons]
      by_cases h : (p.1 == k) = true
      · simp [h, keysOf, beq_iff_eq.mp h]
      · rw [if_neg h, ih]
        simp only [keysOf, List.map_cons, List.mem_cons]
        constructor
        · exact fun hm => Or.inr hm
        · rintro (hm | hm)
          · exact absurd (beq_iff_eq.mpr hm.symm) h
          · exact hm

theorem rlookup_eq_none (r : Rec) (k : String) (h : k ∉ keysOf r) :
    rlookup r k = none := by
  have := (rlookup_isSome r k).not.mpr h
  exact Option.not_isSome_iff_eq_none.mp (by simpa using this)

theorem rlookup_mem_keys {r : Rec} {k : String} {v : Value}
    (h : rlookup r k = some v) : k ∈ keysOf r := by
  have : (rlookup r k).isSome = true := by rw [h]; rfl
  exact (rlookup_isSome r k).mp this

/-- Python dict equality is exactly pointwise lookup equality. -/
theorem dictEq_iff_lookup {a b : Rec} :
    dictEq a b = true ↔ ∀ k, rlookup a k = rlookup b k := by
  constructor
  · intro h k
    rw [dictEq, Bool.and_eq_true, List.all_eq_true, List.all_eq_true] at h
    by_cases ha : k ∈ keysOf a
    · exact beq_iff_eq.mp (h.1 k ha)
    · by_cases hb : k ∈ keysOf b
      · exact beq_iff_eq.mp (h.2 k hb)
      · rw [rlookup_eq_none a k ha, rlookup_eq_none b k hb]
  · intro h
    rw [dictEq, Bool.and_eq_true, List.all_eq_true, List.all_eq_true]
    exact ⟨fun k _ => beq_iff_eq.mpr (h k), fun k _ => beq_iff_eq.mpr (h k)⟩

theorem dictEq_refl (a : Rec) : dictEq a a = true :=
  dictEq_iff_lookup.mpr (fun _ => rfl)

theorem dictEq_symm {a b : Rec} (h : dictEq a b = true) : dictEq b a = true :=
  dictEq_iff_lookup.mpr (fun k => (dictEq_iff_lookup.mp h k).symm)

theorem dictEq_trans {a b c : Rec} (h1 : dictEq a b = true)
    (h2 : dictEq b c = true) : dictEq a c = true :=
  dictEq_iff_lookup.mpr
    (fun k => (dictEq_iff_lookup.mp h1 k).trans (dictEq_iff_lookup.mp h2 k))

theorem dictMem_iff {r : Rec} {l : List Rec} :
    dictMem r l = true ↔ ∃ x ∈ l, dictEq r x = true := by
  simp [dictMem, List.any_eq_true]

theorem dictMem_congr {p q : Rec} (h : dictEq p q = true) (l : List Rec) :
    dictMem p l = dictMem q l := by
  apply bool_eq_of_iff
  rw [dictMem_iff, dictMem_iff]
  constructor
  · rintro ⟨x, hx, hpx⟩; exact ⟨x, hx, dictEq_trans (dictEq_symm h) hpx⟩
  · rintro ⟨x, hx, hqx⟩; exact ⟨x, hx, dictEq_trans h hqx⟩

theorem dictMem_of_mem {r : Rec} {l : List Rec} (h : r ∈ l) : dictMem r l = true :=
  dictMem_iff.mpr ⟨r, h, dictEq_refl r⟩

theorem rlookup_projectPK (pks : List String) (a : Rec) (k : String) :
    rlookup (projectPK pks a) k =
      if pks.contains k then rlookup a k else none := by
  induction a with
  | nil => simp [projectPK, rlookup]
  | cons p rest ih =>
      rw [projectPK] at ih ⊢
      rw [List.filter_cons]
      by_cases hc : pks.contains p.1 = true
      · rw [if_pos hc]
        simp only [rlookup_cons]
        by_cases hk : (p.1 == k) = true
        · have hck : k ∈ pks := by
            rw [← beq_iff_eq.mp hk]; exact (contains_iff pks p.1).mp hc
          simp [hk, hck]
        · simp only [hk, if_false]
          exact ih
      · rw [if_neg hc, ih]
        simp only [rlookup_cons]
        by_cases hk : (p.1 == k) = true
        · have hck : k ∉ pks := by
            rw [← beq_iff_eq.mp hk]; rw [← contains_iff]; simpa using hc
          simp [hk, hck]
        · simp [hk]

theorem dictEq_projectPK {a b : Rec} (pks : List String)
    (h : dictEq a b = true) :
    dictEq (projectPK pks a) (projectPK pks b) = true := by
  rw [dictEq_iff_lookup]
  intro k
  rw [rlookup_projectPK, rlookup_projectPK, dictEq_iff_lookup.mp h k]

theorem map_zip_self {α β : Type} (f : α → β) (l : List α) :
    (l.map f).zip l = l.map (fun x => (f x, x)) := by
  induction l with
  | nil => rfl
  | cons a rest ih => simp [ih]

/-! ### RecordSetDiffer lemmas -/

theorem new_records_eq_filter (pks : List String) (old nw : List Rec) :
    new_records pks old nw =
      nw.filter (fun d => !(dictMem (projectPK pks d) (old.map (projectPK pks)))) := by
  rw [new_records, map_zip_self, List.filter_map, List.map_map]
  exact List.map_id' _

theorem pks_to_be_deleted_mem (pks : List String) (old nw : List Rec) (pk : Rec) :
    dictMem pk (pks_to_be_deleted pks old nw) = true ↔
      (dictMem pk (old.map (projectPK pks)) = true ∧
       dictMem pk (nw.map (projectPK pks)) = false) := by
  rw [pks_to_be_deleted, dictMem_iff]
  constructor
  · rintro ⟨x, hx, hpx⟩
    rw [List.mem_filter] at hx
    obtain ⟨hxo, hq⟩ := hx
    refine ⟨dictMem_iff.mpr ⟨x, hxo, hpx⟩, ?_⟩
    rw [dictMem_congr hpx (nw.map (projectPK pks))]
    simpa using hq
  · rintro ⟨ho, hn⟩
    obtain ⟨x, hx, hpx⟩ := dictMem_iff.mp ho
    refine ⟨x, List.mem_filter.mpr ⟨hx, ?_⟩, hpx⟩
    rw [dictMem_congr hpx (nw.map (projectPK pks))] at hn
    simp [hn]

theorem records_to_be_updated_eq (pks : List String) (old nw : List Rec) :
    records_to_be_updated pks old nw =
      (nw.filter (fun d =>
          dictMem (projectPK pks d) (old.map (projectPK pks)) &&
          !(dictMem d old))).map (fun d => (projectPK pks d, d)) := by
  rw [records_to_be_updated, map_zip_self, List.filter_map]
  rfl

theorem toUpdatePairs_mem (pks : List String) (old nw : List Rec)
    (hk : ∀ o ∈ old, ∀ o2 ∈ old,
      dictEq (projectPK pks o) (projectPK pks o2) = true → o = o2)
    (n o : Rec) :
    (n, some o) ∈ toUpdatePairs pks old nw ↔
      (n ∈ nw ∧ o ∈ old ∧
       dictEq (projectPK pks n) (projectPK pks o) = true ∧
       dictEq n o = false) := by
  rw [toUpdatePairs, records_to_be_updated_eq, List.map_map]
  constructor
  · intro hmem
    obtain ⟨d, hd, hde⟩ := List.mem_map.mp hmem
    rw [List.mem_filter] at hd
    obtain ⟨hdn, hq⟩ := hd
    have hdn2 : d = n := congrArg Prod.fst hde
    subst hdn2
    have hmo : List.find? (fun x => dictEq (projectPK pks x) (projectPK pks d)) old
        = some o := by
      have := congrArg Prod.snd hde
      simpa [matchOld] using this
    have ho : o ∈ old := List.mem_of_find?_eq_some hmo
    have hpe0 := List.find?_some hmo
    have hpe : dictEq (projectPK pks o) (projectPK pks d) = true := hpe0
    rw [Bool.and_eq_true] at hq
    refine ⟨hdn, ho, dictEq_symm hpe, ?_⟩
    by_cases hne : dictEq d o = true
    · exfalso
      have : dictMem d old = true := dictMem_iff.mpr ⟨o, ho, hne⟩
      rw [this] at hq
      simpa using hq.2
    · simpa using hne
  · rintro ⟨hn, ho, hpe, hne⟩
    have hnotmem : dictMem n old = false := by
      by_cases hm : dictMem n old = true
      · exfalso
        obtain ⟨x, hx, hnx⟩ := dictMem_iff.mp hm
        have hpx : dictEq (projectPK pks n) (projectPK pks x) = true :=
          dictEq_projectPK pks hnx
        have hox : dictEq (projectPK pks o) (projectPK pks x) = true :=
          dictEq_trans (dictEq_symm hpe) hpx
        have : o = x := hk o ho x hx hox
        subst this
        rw [hnx] at hne
        exact absurd hne (by simp)
      · simpa using hm
    have hmempk : dictMem (projectPK pks n) (old.map (projectPK pks)) = true :=
      dictMem_iff.mpr
        ⟨projectPK pks o, List.mem_map.mpr ⟨o, ho, rfl⟩, hpe⟩
    have hfind : matchOld pks old (projectPK pks n) = some o := by
      have hsome : (old.find?
          (fun d => dictEq (projectPK pks d) (projectPK pks n))).isSome = true :=
        List.find?_isSome.mpr ⟨o, ho, dictEq_symm hpe⟩
      obtain ⟨o2, ho2⟩ := Option.isSome_iff_exists.mp hsome
      have ho2m : o2 ∈ old := List.mem_of_find?_eq_some ho2
      have ho2e0 := List.find?_some ho2
      have ho2e : dictEq (projectPK pks o2) (projectPK pks n) = true := ho2e0
      have : o2 = o := hk o2 ho2m o ho (dictEq_trans ho2e hpe)
      rw [matchOld, ho2, this]
    refine List.mem_map.mpr ⟨n, List.mem_filter.mpr ⟨hn, ?_⟩, ?_⟩
    · rw [Bool.and_eq_true, hmempk, hnotmem]
      exact ⟨rfl, rfl⟩
    · simp [hfind]

/-- C1: for every part-table reconciliation diff, `toDelete` is exactly the set
of keys present in old and absent from new; `toInsert` is exactly the new rows
whose key is absent from old, in new-row order; and, provided the stored rows
have pairwise distinct primary keys, `toUpdate` is exactly the set of
(new row, first matching old row) pairs sharing a key and differing in content;
and on the spec's concrete example the three parts are `[{id:1}]`,
`[{id:3,a:"w"}]` and `[({id:2,a:"z"}, {id:2,a:"y"})]`. -/
theorem c1_diff_exact (pks : List String) (old nw : List Rec)
    (hk : ∀ o ∈ old, ∀ o2 ∈ old,
      dictEq (projectPK pks o) (projectPK pks o2) = true → o = o2) :
    (∀ pk, dictMem pk (pks_to_be_deleted pks old nw) = true ↔
       (dictMem pk (old.map (projectPK pks)) = true ∧
        dictMem pk (nw.map (projectPK pks)) = false))
  ∧ new_records pks old nw =
      nw.filter (fun d => !(dictMem (projectPK pks d) (old.map (projectPK pks))))
  ∧ (∀ n o, (n, some o) ∈ toUpdatePairs pks old nw ↔
      (n ∈ nw ∧ o ∈ old ∧
       dictEq (projectPK pks n) (projectPK pks o) = true ∧
       dictEq n o = false))
  ∧ pks_to_be_deleted exC1pks exC1old exC1new = [[("id", .vint 1)]]
  ∧ new_records exC1pks exC1old exC1new = [[("id", .vint 3), ("a", .vstr "w")]]
  ∧ toUpdatePairs exC1pks exC1old exC1new =
      [([("id", .vint 2), ("a", .vstr "z")], some [("id", .vint 2), ("a", .vstr "y")])] := by
  refine ⟨fun pk => pks_to_be_deleted_mem pks old nw pk,
    new_records_eq_filter pks old nw,
    fun n o => toUpdatePairs_mem pks old nw hk n o,
    by decide, by decide, by decide⟩

/-! ### Reconciliation-engine run lemmas -/

theorem diff_self_empty (pks : List String) (rows : List Rec) :
    pks_to_be_deleted pks rows rows = [] ∧ new_records pks rows rows = [] ∧
    records_to_be_updated pks rows rows = [] := by
  refine ⟨?_, ?_, ?_⟩
  · rw [pks_to_be_deleted]
    rw [List.filter_eq_nil_iff]
    intro x hx
    simp [dictMem_of_mem hx]
  · rw [new_records_eq_filter]
    rw [List.filter_eq_nil_iff]
    intro d hd
    have hm : projectPK pks d ∈ rows.map (projectPK pks) :=
      List.mem_map.mpr ⟨d, hd, rfl⟩
    simp [dictMem_of_mem hm]
  · rw [records_to_be_updated_eq]
    have hnil : rows.filter (fun d =>
        dictMem (projectPK pks d) (rows.map (projectPK pks)) &&
        !(dictMem d rows)) = [] := by
      rw [List.filter_eq_nil_iff]
      intro d hd
      simp [dictMem_of_mem hd]
    rw [hnil]
    rfl

/-- When the cleaned entries carry no error string, the fetch succeeds and the
rows are not unchanged, `update_part_table` runs delete, insert and update in
order. -/
theorem update_part_table_run (st : Storage) (attrs : Attrs) (tname : String)
    (pks : List String) (mk : Rec) (raw : List Rec) (msg : String)
    (entries : List Entry) (recs old : List Rec)
    (hclean : clean_gui_data attrs (some mk) true raw = .ok entries)
    (hall : allRecs entries = some recs)
    (hfetch : st.fetchOutcome = .ok old)
    (hne : entriesEqRecs entries old = false) :
    update_part_table st attrs tname pks mk raw msg =
      (let del := deleteStep st tname (pks_to_be_deleted pks old recs)
       let ins := insertStep st tname (new_records pks old recs)
       let upd := updateStep st tname pks old (records_to_be_updated pks old recs)
       if upd.2.2 then (.error ("IndexError"), .fetch :: del.2 ++ ins.2 ++ upd.2.1)
       else (.ok (msg ++ del.1 ++ ins.1 ++ upd.1),
             .fetch :: del.2 ++ ins.2 ++ upd.2.1)) := by
  simp only [update_part_table, hclean, hfetch, hne, hall, Bool.false_eq_true,
    if_false]

theorem records_to_be_updated_pk_mem (pks : List String) (old nw : List Rec) :
    ∀ pr ∈ records_to_be_updated pks old nw,
      dictMem pr.1 (old.map (projectPK pks)) = true := by
  intro pr hpr
  rw [records_to_be_updated, List.mem_filter] at hpr
  have h2 := hpr.2
  rw [Bool.and_eq_true] at h2
  exact h2.1

/-- The update step never hits the `IndexError` of `[0]`: every processed pair
has its key among the stored projections, so a matching old row exists. -/
theorem updateStep_no_crash (st : Storage) (tname : String) (pks : List String)
    (old : List Rec) :
    ∀ pairs, (∀ pr ∈ pairs, dictMem pr.1 (old.map (projectPK pks)) = true) →
    (updateStep st tname pks old pairs).2.2 = false := by
  intro pairs
  induction pairs with
  | nil => intro _; rfl
  | cons pr rest ih =>
      intro h
      have hpk := h pr (List.mem_cons_self pr rest)
      obtain ⟨x, hx, hpx⟩ := dictMem_iff.mp hpk
      obtain ⟨o, ho, rfl⟩ := List.mem_map.mp hx
      have hsome : (matchOld pks old pr.1).isSome = true := by
        rw [matchOld]
        exact List.find?_isSome.mpr ⟨o, ho, dictEq_symm hpx⟩
      obtain ⟨orec, horec⟩ := Option.isSome_iff_exists.mp hsome
      cases pr with
      | mk pk nrec =>
          rw [updateStep, horec]
          exact ih (fun q hq => h q (List.mem_cons_of_mem _ hq))

/-- When the cleaned entries equal the fetched rows, the call short-circuits. -/
theorem update_part_table_unchanged (st : Storage) (attrs : Attrs)
    (tname : String) (pks : List String) (mk : Rec) (raw : List Rec)
    (msg : String) (entries : List Entry) (old : List Rec)
    (hclean : clean_gui_data attrs (some mk) true raw = .ok entries)
    (hfetch : st.fetchOutcome = .ok old)
    (heq : entriesEqRecs entries old = true) :
    update_part_table st attrs tname pks mk raw msg =
      (.ok (msg ++ "Part table " ++ tname ++ " data unchanged.\n"), [Op.fetch]) := by
  simp only [update_part_table, hclean, hfetch, heq, if_true]

/-- The per-field update loop of `update_table` cannot raise a `KeyError` when
every secondary field is present in both records. -/
theorem updFieldsLoop_no_crash (st : Storage) (pk new old : Rec) :
    ∀ fs, (∀ f ∈ fs, (rlookup new f).isSome ∧ (rlookup old f).isSome) →
    (updFieldsLoop st pk new old fs).2.2 = false := by
  intro fs
  induction fs with
  | nil => intro _; rfl
  | cons f rest ih =>
      intro h
      obtain ⟨hn, ho⟩ := h f (List.mem_cons_self f rest)
      obtain ⟨nv, hnv⟩ := Option.isSome_iff_exists.mp hn
      obtain ⟨ov, hov⟩ := Option.isSome_iff_exists.mp ho
      have ht := ih (fun g hg => h g (List.mem_cons_of_mem _ hg))
      simp only [updFieldsLoop, hnv, hov]
      by_cases he : (nv == ov) = true
      · simp only [he, if_true]
        exact ht
      · simp only [he, Bool.false_eq_true, if_false]
        exact ht

/-- The insert step under a failed batch insert: every row is retried
individually and contributes exactly one log line, in row order. -/
theorem insertStep_batch_fail (st : Storage) (tname : String) (rows : List Rec)
    (e : String) (hbatch : st.insertManyOutcome = .error e) (hrows : rows ≠ []) :
    insertStep st tname rows =
      (String.join (rows.map (insertRowLine st tname e)),
       .insertMany rows :: rows.map (fun r => .insertOne r)) := by
  have hemp : rows.isEmpty = false := List.isEmpty_eq_false.mpr hrows
  simp only [insertStep, hemp, Bool.false_eq_true, if_false, hbatch]

/-- C2 evaluated at the failing input `newRows = [{n: "abc"}]` (an invalid int):
`clean_gui_data` does not return the error — it returns a list *containing* the
error string — so the `type(new_data) == str` guard in `update_part_table`
cannot fire; the call fetches the stored rows and then raises `AttributeError`
at the key-projection comprehension instead of returning the error. -/
theorem c2_error_not_aborted :
    clean_gui_data exAttrs (some [("id", .vint 1)]) true [[("n", .vstr "abc")]] =
      .ok [Entry.errStr "Invalid int value abc"]
  ∧ update_part_table stBase exAttrs "P" ["id"] [("id", .vint 1)]
      [[("n", .vstr "abc")]] "" = (.error ("AttributeError"), [Op.fetch]) :=
  ⟨rfl, rfl⟩

/-- C4: (i) whenever the cleaned new rows equal the fetched stored rows (the
source's `new_data == old_data` test), `update_part_table` reports the data
unchanged and its trace is the single fetch — no write operation; (ii) the diff
of any row sequence against itself is empty in all three components. -/
theorem c4_unchanged_no_writes :
    (∀ (st : Storage) (attrs : Attrs) (tname : String) (pks : List String)
       (mk : Rec) (raw : List Rec) (msg : String) (entries : List Entry)
       (old : List Rec),
       clean_gui_data attrs (some mk) true raw = .ok entries →
       st.fetchOutcome = .ok old →
       entriesEqRecs entries old = true →
       update_part_table st attrs tname pks mk raw msg =
         (.ok (msg ++ "Part table " ++ tname ++ " data unchanged.\n"), [Op.fetch]) ∧
       (update_part_table st attrs tname pks mk raw msg).2.filter Op.isWrite = [])
  ∧ (∀ (pks : List String) (rows : List Rec),
       pks_to_be_deleted pks rows rows = [] ∧ new_records pks rows rows = [] ∧
       records_to_be_updated pks rows rows = []) := by
  constructor
  · intro st attrs tname pks mk raw msg entries old hclean hfetch heq
    have hmain := update_part_table_unchanged st attrs tname pks mk raw msg
      entries old hclean hfetch heq
    exact ⟨hmain, by rw [hmain]; rfl⟩
  · exact fun pks rows => diff_self_empty pks rows

/-- C4 witness: with the part table holding exactly `{id:7, note:"a"}` and the
UI submitting the same row, the call reports "unchanged" and only fetches. -/
theorem c4_witness :
    update_part_table stC4 exAttrs "P" ["id"] exMaster [[("note", .vstr "a")]] "" =
      (.ok ("" ++ "Part table " ++ "P" ++ " data unchanged.\n"), [Op.fetch]) :=
  ((c4_unchanged_no_writes.1 stC4 exAttrs "P" ["id"] exMaster
      [[("note", .vstr "a")]] ""
      [Entry.record [("id", .vint 7), ("note", .vstr "a")]]
      [[("id", .vint 7), ("note", .vstr "a")]] rfl rfl (by decide))).1

/-- C3 counterexample: with a storage whose exists-check raises, `update_table`
propagates the exception to the caller instead of returning an outcome log —
the claim that every storage failure is caught at the point of the individual
operation is false for the fetch/exists-check operations. -/
theorem c3_counterexample :
    update_table stExistsDown exAttrs ["note"] [("note", .vstr "x")]
      [("id", .vint 1)] "Update message:\n" =
      (.error ("db connection lost"), [Op.existsCheck]) := rfl

/-- C3 amended: failures of the *write* operations (single-field update,
batch/single insert, batch delete) are caught at each operation and logged —
whenever the exists-check and fetches succeed and validation yields a record,
all three entry points return an outcome log for every behaviour of the write
operations; `add_record` additionally catches even exists-check failures. -/
theorem c3_writes_caught :
    (∀ (st : Storage) (attrs : Attrs) (secondaries : List String)
       (nd pk : Rec) (msg : String) (b : Bool) (cnew oldr : Rec),
       st.existsOutcome = .ok b →
       st.fetchOneOutcome = .ok oldr →
       clean_single_gui_record attrs nd none false = .ok cnew →
       (∀ f ∈ secondaries, (rlookup cnew f).isSome ∧ (rlookup oldr f).isSome) →
       ∃ m t, update_table st attrs secondaries nd pk msg = (.ok m, t))
  ∧ (∀ (st : Storage) (attrs : Attrs) (tname : String) (pks : List String)
       (mk : Rec) (raw : List Rec) (msg : String) (entries : List Entry)
       (recs old : List Rec),
       clean_gui_data attrs (some mk) true raw = .ok entries →
       allRecs entries = some recs →
       st.fetchOutcome = .ok old →
       ∃ m t, update_part_table st attrs tname pks mk raw msg = (.ok m, t))
  ∧ (∀ (st : Storage) (attrs : Attrs) (pkcols : List String) (tname : String)
       (d0 entry pkr : Rec),
       clean_single_gui_record attrs d0 none false = .ok entry →
       get_pk attrs pkcols entry = .ok pkr →
       ∃ m t, add_record st attrs pkcols tname d0 = (.ok m, t)) := by
  refine ⟨?_, ?_, ?_⟩
  · intro st attrs secondaries nd pk msg b cnew oldr hex hf1 hcl hlook
    by_cases hblank : valsAllBlank (pk.map Prod.snd) = true
    · exact ⟨msg, [], by simp only [update_table, hblank, if_true]⟩
    · have hb : valsAllBlank (pk.map Prod.snd) = false := by
        simpa using hblank
      cases b with
      | false =>
          exact ⟨msg, [.existsCheck],
            by simp only [update_table, hb, Bool.false_eq_true, if_false, hex]⟩
      | true =>
          have hnc := updFieldsLoop_no_crash st pk cnew oldr secondaries hlook
          refine ⟨msg ++ (updFieldsLoop st pk cnew oldr secondaries).1,
            .existsCheck :: .fetchOne :: (updFieldsLoop st pk cnew oldr secondaries).2.1, ?_⟩
          simp only [update_table, hb, Bool.false_eq_true, if_false, hex, hcl,
            hf1, hnc]
  · intro st attrs tname pks mk raw msg entries recs old hclean hall hfetch
    by_cases hunch : entriesEqRecs entries old = true
    · exact ⟨msg ++ "Part table " ++ tname ++ " data unchanged.\n", [Op.fetch],
        update_part_table_unchanged st attrs tname pks mk raw msg entries old
          hclean hfetch hunch⟩
    · have hne : entriesEqRecs entries old = false := by simpa using hunch
      have hrun := update_part_table_run st attrs tname pks mk raw msg entries
        recs old hclean hall hfetch hne
      have hnc : (updateStep st tname pks old
          (records_to_be_updated pks old recs)).2.2 = false :=
        updateStep_no_crash st tname pks old _
          (records_to_be_updated_pk_mem pks old recs)
      rw [hrun]
      simp only [hnc, Bool.false_eq_true, if_false]
      exact ⟨_, _, rfl⟩
  · intro st attrs pkcols tname d0 entry pkr hcl hpk
    cases hex : st.existsOutcome with
    | error e =>
        exact ⟨_, _, by simp only [add_record, hcl, hpk, hex]; rfl⟩
    | ok b =>
        cases b with
        | true => exact ⟨_, _, by simp only [add_record, hcl, hpk, hex]; rfl⟩
        | false =>
            cases hins : st.insertOneOutcome entry with
            | ok u =>
                exact ⟨_, _, by simp only [add_record, hcl, hpk, hex, hins]; rfl⟩
            | error e =>
                exact ⟨_, _, by simp only [add_record, hcl, hpk, hex, hins]; rfl⟩

/-- C3 witness: the amended statement applied at concrete inputs for all three
entry points (a refused field update, a clean part-table run, and an add with
the key present). -/
theorem c3_witness :
    (∃ m t, update_table stC3W exAttrs ["note"]
       [("id", .vstr "1"), ("note", .vstr "new")] [("id", .vint 1)]
       "Update message:\n" = (.ok m, t))
  ∧ (∃ m t, update_part_table stBase exAttrs "P" ["id"] exMaster
       [[("note", .vstr "b")]] "" = (.ok m, t))
  ∧ (∃ m t, add_record stC5 exAttrs ["id"] "Subject"
       [("id", .vstr "3"), ("note", .vstr "hi")] = (.ok m, t)) :=
  ⟨c3_writes_caught.1 stC3W exAttrs ["note"]
      [("id", .vstr "1"), ("note", .vstr "new")] [("id", .vint 1)]
      "Update message:\n" true [("id", .vint 1), ("note", .vstr "new")]
      [("id", .vint 1), ("note", .vstr "old")] rfl rfl rfl (by decide),
   c3_writes_caught.2.1 stBase exAttrs "P" ["id"] exMaster
      [[("note", .vstr "b")]] ""
      [Entry.record [("id", .vint 7), ("note", .vstr "b")]]
      [[("id", .vint 7), ("note", .vstr "b")]] [] rfl rfl rfl,
   c3_writes_caught.2.2 stC5 exAttrs ["id"] "Subject"
      [("id", .vstr "3"), ("note", .vstr "hi")]
      [("id", .vint 3), ("note", .vstr "hi")] [("id", .vint 3)] rfl rfl⟩

/-- C5: whenever the record's key already exists in storage, `add_record`
returns the "record exists" warning and its trace is the exists-check alone —
neither a single-row nor a batch insert is issued, so the stored row is
untouched. -/
theorem c5_exists_no_write (st : Storage) (attrs : Attrs) (pkcols : List String)
    (tname : String) (d0 entry pkr : Rec)
    (hcl : clean_single_gui_record attrs d0 none false = .ok entry)
    (hpk : get_pk attrs pkcols entry = .ok pkr)
    (hex : st.existsOutcome = .ok true) :
    add_record st attrs pkcols tname d0 =
      (.ok ("Add message:" ++ "\nWarning: record " ++ reprRec pkr ++
        " exists in database\n"), [Op.existsCheck])
  ∧ (add_record st attrs pkcols tname d0).2.filter Op.isWrite = [] := by
  have hmain : add_record st attrs pkcols tname d0 =
      (.ok ("Add message:" ++ "\nWarning: record " ++ reprRec pkr ++
        " exists in database\n"), [Op.existsCheck]) := by
    simp only [add_record, hcl, hpk, hex]
  exact ⟨hmain, by rw [hmain]; rfl⟩

/-- C5 witness: adding `{id:"3", note:"hi"}` while key `{id:3}` exists warns
and performs no write. -/
theorem c5_witness :
    add_record stC5 exAttrs ["id"] "Subject"
      [("id", .vstr "3"), ("note", .vstr "hi")] =
      (.ok ("Add message:" ++ "\nWarning: record " ++
        reprRec [("id", .vint 3)] ++ " exists in database\n"), [Op.existsCheck]) :=
  (c5_exists_no_write stC5 exAttrs ["id"] "Subject"
    [("id", .vstr "3"), ("note", .vstr "hi")]
    [("id", .vint 3), ("note", .vstr "hi")] [("id", .vint 3)] rfl rfl rfl).1

/-- C6: in the insert step of a part-table reconciliation whose batch insert
fails, the trace shows the batch attempt followed by one individual insert per
row — regardless of the individual outcomes — and the log holds one line per
row; in particular every `toInsert` row has its `insertOne` in the trace. -/
theorem c6_insert_batch_retry (st : Storage) (attrs : Attrs) (tname : String)
    (pks : List String) (mk : Rec) (raw : List Rec) (msg : String)
    (entries : List Entry) (recs old : List Rec) (e : String)
    (hclean : clean_gui_data attrs (some mk) true raw = .ok entries)
    (hall : allRecs entries = some recs)
    (hfetch : st.fetchOutcome = .ok old)
    (hne : entriesEqRecs entries old = false)
    (hbatch : st.insertManyOutcome = .error e)
    (hrows : new_records pks old recs ≠ []) :
    update_part_table st attrs tname pks mk raw msg =
      (.ok (msg ++ (deleteStep st tname (pks_to_be_deleted pks old recs)).1
         ++ String.join ((new_records pks old recs).map (insertRowLine st tname e))
         ++ (updateStep st tname pks old (records_to_be_updated pks old recs)).1),
       .fetch :: (deleteStep st tname (pks_to_be_deleted pks old recs)).2
         ++ (Op.insertMany (new_records pks old recs)
              :: (new_records pks old recs).map (fun r => Op.insertOne r))
         ++ (updateStep st tname pks old (records_to_be_updated pks old recs)).2.1)
  ∧ ∀ r ∈ new_records pks old recs,
      Op.insertOne r ∈ (update_part_table st attrs tname pks mk raw msg).2 := by
  have hrun := update_part_table_run st attrs tname pks mk raw msg entries recs
    old hclean hall hfetch hne
  have hnc : (updateStep st tname pks old
      (records_to_be_updated pks old recs)).2.2 = false :=
    updateStep_no_crash st tname pks old _
      (records_to_be_updated_pk_mem pks old recs)
  have hins := insertStep_batch_fail st tname (new_records pks old recs) e
    hbatch hrows
  have hmain : update_part_table st attrs tname pks mk raw msg =
      (.ok (msg ++ (deleteStep st tname (pks_to_be_deleted pks old recs)).1
         ++ String.join ((new_records pks old recs).map (insertRowLine st tname e))
         ++ (updateStep st tname pks old (records_to_be_updated pks old recs)).1),
       .fetch :: (deleteStep st tname (pks_to_be_deleted pks old recs)).2
         ++ (Op.insertMany (new_records pks old recs)
              :: (new_records pks old recs).map (fun r => Op.insertOne r))
         ++ (updateStep st tname pks old (records_to_be_updated pks old recs)).2.1) := by
    rw [hrun]
    simp only [hnc, Bool.false_eq_true, if_false, hins]
  refine ⟨hmain, ?_⟩
  intro r hr
  rw [hmain]
  exact List.mem_cons_of_mem _ (List.mem_append.mpr (Or.inl
    (List.mem_append.mpr (Or.inr (List.mem_cons_of_mem _
      (List.mem_map.mpr ⟨r, hr, rfl⟩))))))

/-- C6 witness: a 3-row batch whose batch insert fails and whose second
individual retry also fails still attempts all three individual inserts. -/
theorem c6_witness :
    Op.insertOne exC6row1 ∈ (update_part_table stC6 exAttrs "P" ["id", "s"]
      exMaster [[("s", .vstr "1")], [("s", .vstr "2")], [("s", .vstr "3")]] "").2
  ∧ Op.insertOne exC6row2 ∈ (update_part_table stC6 exAttrs "P" ["id", "s"]
      exMaster [[("s", .vstr "1")], [("s", .vstr "2")], [("s", .vstr "3")]] "").2
  ∧ Op.insertOne exC6row3 ∈ (update_part_table stC6 exAttrs "P" ["id", "s"]
      exMaster [[("s", .vstr "1")], [("s", .vstr "2")], [("s", .vstr "3")]] "").2 :=
  ⟨(c6_insert_batch_retry stC6 exAttrs "P" ["id", "s"] exMaster
      [[("s", .vstr "1")], [("s", .vstr "2")], [("s", .vstr "3")]] ""
      [Entry.record exC6row1, Entry.record exC6row2, Entry.record exC6row3]
      [exC6row1, exC6row2, exC6row3] [] "dup" rfl rfl rfl rfl rfl
      (by decide)).2 exC6row1 (by decide),
   (c6_insert_batch_retry stC6 exAttrs "P" ["id", "s"] exMaster
      [[("s", .vstr "1")], [("s", .vstr "2")], [("s", .vstr "3")]] ""
      [Entry.record exC6row1, Entry.record exC6row2, Entry.record exC6row3]
      [exC6row1, exC6row2, exC6row3] [] "dup" rfl rfl rfl rfl rfl
      (by decide)).2 exC6row2 (by decide),
   (c6_insert_batch_retry stC6 exAttrs "P" ["id", "s"] exMaster
      [[("s", .vstr "1")], [("s", .vstr "2")], [("s", .vstr "3")]] ""
      [Entry.record exC6row1, Entry.record exC6row2, Entry.record exC6row3]
      [exC6row1, exC6row2, exC6row3] [] "dup" rfl rfl rfl rfl rfl
      (by decide)).2 exC6row3 (by decide)⟩

/-! ### FieldCoercer lemmas (datetime/timestamp) -/

theorem parseDT_vdatetime (sep : Char) (s : String) (w : Value)
    (h : parseDT sep s = some w) :
    ∃ y mo d hh mi se, w = Value.vdatetime y mo d hh mi se := by
  rw [parseDT] at h
  cases hsp : splitOnChar sep s.toList with
  | nil => rw [hsp] at h; exact absurd h (by simp)
  | cons a l1 =>
      cases l1 with
      | nil => rw [hsp] at h; exact absurd h (by simp)
      | cons b l2 =>
          cases l2 with
          | cons c l3 => rw [hsp] at h; exact absurd h (by simp)
          | nil =>
              rw [hsp] at h
              cases hd : parseDate (String.mk a) with
              | none => simp [hd] at h
              | some ymd =>
                  cases htm : parseTime b with
                  | none => simp [hd, htm] at h
                  | some hms =>
                      obtain ⟨y, mo, d⟩ := ymd
                      obtain ⟨hh, mi, se⟩ := hms
                      simp [hd, htm] at h
                      exact ⟨y, mo, d, hh, mi, se, h.symm⟩

/-- Already-typed datetime values pass through the datetime/timestamp branch
unchanged. -/
theorem coerce_vdt_pass (t k : String) (ht : t = "datetime" ∨ t = "timestamp") :
    ∀ y mo d hh mi se, coerceField (fun _ => t) k (.vdatetime y mo d hh mi se) =
      .ok (.vdatetime y mo d hh mi se) := by
  rcases ht with rfl | rfl <;> intro y mo d hh mi se <;> rfl

/-- The datetime/timestamp branch on a non-empty string input: first format
`"%Y-%m-%d %H:%M:%S"`, then `"%Y-%m-%dT%H:%M:%S"`, then the error. -/
theorem coerce_vstr_dt (t k s : String) (ht : t = "datetime" ∨ t = "timestamp")
    (hs : s ≠ "") :
    coerceField (fun _ => t) k (.vstr s) =
      (match parseDT (' ') s with
       | some w => .ok w
       | none =>
           match parseDT ('T') s with
           | some w => .ok w
           | none => .error (.verr ("Invalid " ++ t ++ " value " ++ s))) := by
  have hb1 : (Value.vstr s == Value.vstr "") = false :=
    beq_eq_false_iff_ne.mpr (fun hh => hs (Value.vstr.inj hh))
  have hb2 : (s == "") = false := beq_eq_false_iff_ne.mpr hs
  rcases ht with rfl | rfl <;>
    simp [coerceField, Value.truthy, hb1, hb2]

/-- Coercing the result of a successful datetime/timestamp coercion returns it
unchanged. -/
theorem coerceDT_idem (t k : String) (ht : t = "datetime" ∨ t = "timestamp") :
    ∀ v w, coerceField (fun _ => t) k v = .ok w →
      coerceField (fun _ => t) k w = .ok w := by
  intro v w h
  cases v with
  | vstr s =>
      by_cases hs : s = ""
      · subst hs
        have hv : coerceField (fun _ => t) k (.vstr "") = .ok .vnull := by
          rcases ht with rfl | rfl <;> rfl
        rw [hv] at h
        injection h with h2
        subst h2
        rcases ht with rfl | rfl <;> rfl
      · rw [coerce_vstr_dt t k s ht hs] at h
        cases hp1 : parseDT (' ') s with
        | some w1 =>
            rw [hp1] at h
            simp at h
            subst h
            obtain ⟨y, mo, d, hh, mi, se, rfl⟩ := parseDT_vdatetime _ _ _ hp1
            exact coerce_vdt_pass t k ht y mo d hh mi se
        | none =>
            rw [hp1] at h
            cases hp2 : parseDT ('T') s with
            | some w1 =>
                rw [hp2] at h
                simp at h
                subst h
                obtain ⟨y, mo, d, hh, mi, se, rfl⟩ := parseDT_vdatetime _ _ _ hp2
                exact coerce_vdt_pass t k ht y mo d hh mi se
            | none =>
                rw [hp2] at h
                exact absurd h (by simp)
  | vnull =>
      have hv : coerceField (fun _ => t) k .vnull = .ok .vnull := by
        rcases ht with rfl | rfl <;> rfl
      rw [hv] at h
      injection h with h2
      subst h2
      exact hv
  | vint n =>
      by_cases hn : (n == 0) = true
      · have hn0 : n = 0 := beq_iff_eq.mp hn
        subst hn0
        have hv : coerceField (fun _ => t) k (.vint 0) = .ok (.vint 0) := by
          rcases ht with rfl | rfl <;> rfl
        rw [hv] at h
        injection h with h2
        subst h2
        exact hv
      · have hn2 : (n == 0) = false := by simpa using hn
        have hv : coerceField (fun _ => t) k (.vint n) = .error .typeErr := by
          rcases ht with rfl | rfl <;> simp [coerceField, Value.truthy, hn2]
        rw [hv] at h
        exact absurd h (by simp)
  | vfloat q =>
      by_cases hq : (q == 0) = true
      · have hv : coerceField (fun _ => t) k (.vfloat q) = .ok (.vfloat q) := by
          rcases ht with rfl | rfl <;> simp [coerceField, Value.truthy, hq]
        rw [hv] at h
        injection h with h2
        subst h2
        exact hv
      · have hq2 : (q == 0) = false := by simpa using hq
        have hv : coerceField (fun _ => t) k (.vfloat q) = .error .typeErr := by
          rcases ht with rfl | rfl <;> simp [coerceField, Value.truthy, hq2]
        rw [hv] at h
        exact absurd h (by simp)
  | vdate y m d =>
      have hv : coerceField (fun _ => t) k (.vdate y m d) = .error .typeErr := by
        rcases ht with rfl | rfl <;> rfl
      rw [hv] at h
      exact absurd h (by simp)
  | vdatetime y mo d hh mi se =>
      have hv := coerce_vdt_pass t k ht y mo d hh mi se
      rw [hv] at h
      injection h with h2
      subst h2
      exact hv

/-- The legacy `dj_dashboard` datetime branch: single format, no fallback. -/
theorem legacy_vstr_datetime (k s : String) (hs : s ≠ "") :
    DJLegacy.coerceField (fun _ => "datetime") k (.vstr s) =
      (match parseDT (' ') s with
       | some w => .ok w
       | none => .error (.verr ("Invalid datetime value " ++ s))) := by
  have hb1 : (Value.vstr s == Value.vstr "") = false :=
    beq_eq_false_iff_ne.mpr (fun hh => hs (Value.vstr.inj hh))
  have hb2 : (s == "") = false := beq_eq_false_iff_ne.mpr hs
  simp [DJLegacy.coerceField, Value.truthy, hb1, hb2]

/-- The legacy `dj_dashboard` timestamp branch: single `T` format only. -/
theorem legacy_vstr_timestamp (k s : String) (hs : s ≠ "") :
    DJLegacy.coerceField (fun _ => "timestamp") k (.vstr s) =
      (match parseDT ('T') s with
       | some w => .ok w
       | none => .error (.verr ("Invalid timestamp value " ++ s))) := by
  have hb1 : (Value.vstr s == Value.vstr "") = false :=
    beq_eq_false_iff_ne.mpr (fun hh => hs (Value.vstr.inj hh))
  have hb2 : (s == "") = false := beq_eq_false_iff_ne.mpr hs
  simp [DJLegacy.coerceField, Value.truthy, hb1, hb2]

/-- C7 counterexample: the older duplicate coercer (`dj_dashboard`) does not
try the `"%Y-%m-%d %H:%M:%S"` format for timestamp columns — a value in that
format errors although the claimed first format parses it — and it does not
pass an already-typed datetime through (it raises `TypeError`). -/
theorem c7_counterexample :
    DJLegacy.coerceField (fun _ => "timestamp") "ts"
        (.vstr "2024-01-15 10:00:00") =
      .error (.verr ("Invalid timestamp value 2024-01-15 10:00:00"))
  ∧ parseDT (' ') "2024-01-15 10:00:00" = some (.vdatetime 2024 1 15 10 0 0)
  ∧ DJLegacy.coerceField (fun _ => "datetime") "dt"
      (.vdatetime 2024 1 15 10 0 0) = .error .typeErr :=
  ⟨rfl, rfl, rfl⟩

/-- C7 amended: in the `datajoint_dashboard` coercer the claim holds: for
datetime/timestamp columns a string input is parsed with the space-separated
format first, then the `T`-separated format, erroring exactly when both fail;
already-typed datetime (and date) values pass through unchanged, so coercion is
idempotent on its own output.  The legacy `dj_dashboard` copy instead tries a
single format per type (datetime: space, timestamp: `T`) with no fallback. -/
theorem c7_datetime_coercion (t k : String)
    (ht : t = "datetime" ∨ t = "timestamp") :
    (∀ y mo d hh mi se, coerceField (fun _ => t) k (.vdatetime y mo d hh mi se) =
        .ok (.vdatetime y mo d hh mi se))
  ∧ (∀ s, s ≠ "" → coerceField (fun _ => t) k (.vstr s) =
        (match parseDT (' ') s with
         | some w => .ok w
         | none =>
             match parseDT ('T') s with
             | some w => .ok w
             | none => .error (.verr ("Invalid " ++ t ++ " value " ++ s))))
  ∧ (∀ s, s ≠ "" →
        ((∃ es, coerceField (fun _ => t) k (.vstr s) = .error es) ↔
          (parseDT (' ') s = none ∧ parseDT ('T') s = none)))
  ∧ (∀ y m d, coerceField (fun _ => "date") k (.vdate y m d) = .ok (.vdate y m d))
  ∧ (∀ v w, coerceField (fun _ => t) k v = .ok w →
        coerceField (fun _ => t) k w = .ok w)
  ∧ (∀ s, s ≠ "" → DJLegacy.coerceField (fun _ => "datetime") k (.vstr s) =
        (match parseDT (' ') s with
         | some w => .ok w
         | none => .error (.verr ("Invalid datetime value " ++ s))))
  ∧ (∀ s, s ≠ "" → DJLegacy.coerceField (fun _ => "timestamp") k (.vstr s) =
        (match parseDT ('T') s with
         | some w => .ok w
         | none => .error (.verr ("Invalid timestamp value " ++ s)))) := by
  refine ⟨coerce_vdt_pass t k ht, fun s hs => coerce_vstr_dt t k s ht hs,
    ?_, fun y m d => rfl, coerceDT_idem t k ht,
    fun s hs => legacy_vstr_datetime k s hs,
    fun s hs => legacy_vstr_timestamp k s hs⟩
  intro s hs
  rw [coerce_vstr_dt t k s ht hs]
  constructor
  · rintro ⟨es, he⟩
    cases hp1 : parseDT (' ') s with
    | some w => rw [hp1] at he; exact absurd he (by simp)
    | none =>
        cases hp2 : parseDT ('T') s with
        | some w => rw [hp1, hp2] at he; exact absurd he (by simp)
        | none => exact ⟨rfl, rfl⟩
  · rintro ⟨hp1, hp2⟩
    rw [hp1, hp2]
    exact ⟨.verr ("Invalid " ++ t ++ " value " ++ s), rfl⟩

/-- C7 witness: an already-typed datetime value passes through the
datetime-column coercion unchanged. -/
theorem c7_witness :
    coerceField (fun _ => "datetime") "c" (.vdatetime 2024 1 15 10 0 0) =
      .ok (.vdatetime 2024 1 15 10 0 0) :=
  (c7_datetime_coercion "datetime" "c" (Or.inl rfl)).1 2024 1 15 10 0 0

/-! ### RecordValidator lemmas (blank-row dropping and key injection) -/

/-- C8 counterexample: for `d = {id: ""}` with `masterKey = {id: 5}` every
non-key field of `d` is `""` (vacuously — there are none), yet the validator
does not drop the record: the remaining-value set is empty, `set() != {''}`
holds, and the record is coerced and key-injected to `{id: 5}`. -/
theorem c8_counterexample :
    (∀ p ∈ ([("id", Value.vstr "")] : Rec),
        (keysOf [("id", Value.vint 5)]).contains p.1 = false → p.2 = Value.vstr "")
  ∧ clean_single_gui_record exAttrs [("id", .vstr "")]
      (some [("id", .vint 5)]) true = .ok [("id", .vint 5)] :=
  ⟨by decide, rfl⟩

/-- C8 amended: a record with *at least one* field outside the master key, all
of whose non-master-key fields are the empty string, is dropped (`null`),
regardless of the column types; without a master key, a non-empty record whose
values are all the empty string is dropped. -/
theorem c8_blank_dropped :
    (∀ (attrs : Attrs) (d mk : Rec) (addMk : Bool),
       mk ≠ [] →
       d.filter (fun p => !((keysOf mk).contains p.1)) ≠ [] →
       (∀ p ∈ d, (keysOf mk).contains p.1 = false → p.2 = .vstr "") →
       clean_single_gui_record attrs d (some mk) addMk = .dropped)
  ∧ (∀ (attrs : Attrs) (d : Rec) (addMk : Bool),
       d ≠ [] → (∀ p ∈ d, p.2 = .vstr "") →
       clean_single_gui_record attrs d none addMk = .dropped) := by
  constructor
  · intro attrs d mk addMk hmk hfil hall
    have hmkt : mkTruthy (some mk) = true := by
      simp [mkTruthy, List.isEmpty_eq_false.mpr hmk]
    have hrel : relevantVals (some mk) d =
        (d.filter (fun p => !((keysOf mk).contains p.1))).map Prod.snd := by
      simp [relevantVals, hmkt]
    have hblank : valsAllBlank (relevantVals (some mk) d) = true := by
      rw [hrel, valsAllBlank, Bool.and_eq_true]
      constructor
      · have hne : (d.filter (fun p => !((keysOf mk).contains p.1))).map Prod.snd
            ≠ [] := by
          intro hc
          exact hfil (List.map_eq_nil_iff.mp hc)
        rw [List.isEmpty_eq_false.mpr hne]
        rfl
      · rw [List.all_eq_true]
        intro v hv
        obtain ⟨p, hp, rfl⟩ := List.mem_map.mp hv
        rw [List.mem_filter] at hp
        have hc : (keysOf mk).contains p.1 = false := by
          have h2 := hp.2
          simpa using h2
        simp [hall p hp.1 hc]
    simp only [clean_single_gui_record, hblank, Bool.not_true,
      Bool.false_eq_true, if_false]
  · intro attrs d addMk hd hall
    have hblank : valsAllBlank (relevantVals none d) = true := by
      rw [valsAllBlank, Bool.and_eq_true]
      have hrel : relevantVals none d = d.map Prod.snd := by
        simp [relevantVals, mkTruthy]
      rw [hrel]
      constructor
      · have hne : d.map Prod.snd ≠ [] := by
          intro hc
          exact hd (List.map_eq_nil_iff.mp hc)
        rw [List.isEmpty_eq_false.mpr hne]
        rfl
      · rw [List.all_eq_true]
        intro v hv
        obtain ⟨p, hp, rfl⟩ := List.mem_map.mp hv
        simp [hall p hp]
    simp only [clean_single_gui_record, hblank, Bool.not_true,
      Bool.false_eq_true, if_false]

/-- C8 witness: a row whose only non-master-key field is blank is dropped. -/
theorem c8_witness :
    clean_single_gui_record exAttrs [("id", .vstr ""), ("note", .vstr "")]
      (some [("id", .vint 5)]) true = .dropped :=
  c8_blank_dropped.1 exAttrs [("id", .vstr ""), ("note", .vstr "")]
    [("id", .vint 5)] true (by decide) (by decide) (by decide)

theorem rlookup_append (a b : Rec) (k : String) :
    rlookup (a ++ b) k = (rlookup a k).or (rlookup b k) := by
  rw [rlookup, rlookup, rlookup, List.find?_append]
  cases a.find? (fun p => p.1 == k) <;> simp

theorem rlookup_filter (q : String × Value → Bool) (l : Rec) (k : String)
    (h : ∀ p : String × Value, p.1 = k → q p = true) :
    rlookup (l.filter q) k = rlookup l k := by
  induction l with
  | nil => rfl
  | cons p rest ih =>
      rw [List.filter_cons]
      by_cases hq : q p = true
      · rw [if_pos hq, rlookup_cons, rlookup_cons, ih]
      · rw [if_neg hq, ih, rlookup_cons]
        have hk : (p.1 == k) = false := by
          rw [beq_eq_false_iff_ne]
          intro he
          exact hq (h p he)
        rw [hk]
        simp

/-- C9: on the successful key-injection path, the cleaned record is the master
key followed by the coerced fields whose key is not a master-key column; its
projection to the master-key columns is exactly the master key, every
master-key column looks up to the master key's value, and every other column
looks up to its coerced input value. -/
theorem c9_key_injection (attrs : Attrs) (d mk c : Rec)
    (hmk : mk ≠ [])
    (hco : coerceRecord attrs d = .ok c)
    (hbl : valsAllBlank (relevantVals (some mk) d) = false) :
    clean_single_gui_record attrs d (some mk) true =
      .ok (mk ++ c.filter (fun p => !((keysOf mk).contains p.1)))
  ∧ projectPK (keysOf mk)
      (mk ++ c.filter (fun p => !((keysOf mk).contains p.1))) = mk
  ∧ (∀ k, k ∈ keysOf mk →
      rlookup (mk ++ c.filter (fun p => !((keysOf mk).contains p.1))) k =
        rlookup mk k)
  ∧ (∀ k, k ∉ keysOf mk →
      rlookup (mk ++ c.filter (fun p => !((keysOf mk).contains p.1))) k =
        rlookup c k) := by
  have hmkt : mkTruthy (some mk) = true := by
    simp [mkTruthy, List.isEmpty_eq_false.mpr hmk]
  refine ⟨?_, ?_, ?_, ?_⟩
  · simp [clean_single_gui_record, hbl, hco, hmkt]
  · rw [projectPK, List.filter_append]
    have h1 : mk.filter (fun p => (keysOf mk).contains p.1) = mk := by
      rw [List.filter_eq_self]
      intro p hp
      exact (contains_iff (keysOf mk) p.1).mpr (List.mem_map.mpr ⟨p, hp, rfl⟩)
    have h2 : (c.filter (fun p => !((keysOf mk).contains p.1))).filter
        (fun p => (keysOf mk).contains p.1) = [] := by
      rw [List.filter_eq_nil_iff]
      intro p hp
      rw [List.mem_filter] at hp
      have h2b := hp.2
      simp only [Bool.not_eq_true'] at h2b
      intro hc
      rw [h2b] at hc
      exact Bool.false_ne_true hc
    rw [h1, h2, List.append_nil]
  · intro k hk
    obtain ⟨v, hv⟩ := Option.isSome_iff_exists.mp ((rlookup_isSome mk k).mpr hk)
    rw [rlookup_append, hv]
    rfl
  · intro k hk
    rw [rlookup_append, rlookup_eq_none mk k hk]
    rw [Option.none_or]
    apply rlookup_filter
    intro p hp
    have hcf : (keysOf mk).contains p.1 = false := by
      rw [hp]
      exact (contains_false_iff (keysOf mk) k).mpr hk
    rw [hcf]
    rfl

/-- C9 witness: coercing `{id:"", note:"x"}` with master key `{id:9}`: the id
column is blanked to None by coercion, stripped, and replaced by the master
key's value. -/
theorem c9_witness :
    clean_single_gui_record exAttrs [("id", .vstr ""), ("note", .vstr "x")]
      (some [("id", .vint 9)]) true = .ok [("id", .vint 9), ("note", .vstr "x")] :=
  (c9_key_injection exAttrs [("id", .vstr ""), ("note", .vstr "x")]
    [("id", .vint 9)] [("id", .vnull), ("note", .vstr "x")]
    (by decide) rfl rfl).1

/-! ### Positional zip of the part-table update step (C10) -/

theorem filterMap_congr_mem {α β : Type} (f g : α → Option β) :
    ∀ l : List α, (∀ a ∈ l, f a = g a) → l.filterMap f = l.filterMap g := by
  intro l
  induction l with
  | nil => intro _; rfl
  | cons a rest ih =>
      intro h
      rw [List.filterMap_cons, List.filterMap_cons,
        h a (List.mem_cons_self a rest),
        ih (fun b hb => h b (List.mem_cons_of_mem _ hb))]

/-- On records enumerating the same columns in the same order (with no
duplicate column), the positional zip walk of the source agrees with the
by-name reading: field `f` is updated from `old[f]` to `new[f]` exactly when
`f` is a non-key column whose values differ. -/
theorem fieldUpdates_lookup (pks : List String) :
    ∀ (old nw : Rec), keysOf old = keysOf nw → (keysOf old).Nodup →
      fieldUpdates pks old nw = old.filterMap (fun pr =>
        match rlookup nw pr.1 with
        | some nv =>
            if !(pks.contains pr.1) && !(pr.2 == nv) then some (pr.1, pr.2, nv)
            else none
        | none => none) := by
  intro old
  induction old with
  | nil =>
      intro nw hkeys _
      have hnw : nw = [] := by
        rw [keysOf, keysOf] at hkeys
        exact List.map_eq_nil_iff.mp hkeys.symm
      subst hnw
      rfl
  | cons p rest ih =>
      intro nw hkeys hnd
      cases nw with
      | nil => exact absurd hkeys (by simp [keysOf])
      | cons q nrest =>
          simp only [keysOf, List.map_cons, List.cons.injEq] at hkeys
          obtain ⟨hk0, hkr⟩ := hkeys
          rw [keysOf, List.map_cons, List.nodup_cons] at hnd
          obtain ⟨hnotin, hndr⟩ := hnd
          have hhead : rlookup (q :: nrest) p.1 = some q.2 := by
            rw [rlookup_cons, if_pos (beq_iff_eq.mpr hk0.symm)]
          have htail : List.filterMap
              (fun pq : (String × Value) × (String × Value) =>
                if !(pks.contains pq.1.1) && !(pq.1.2 == pq.2.2) then
                  some (pq.1.1, pq.1.2, pq.2.2)
                else none) (rest.zip nrest) =
              List.filterMap (fun pr =>
                match rlookup (q :: nrest) pr.1 with
                | some nv =>
                    if !(pks.contains pr.1) && !(pr.2 == nv) then
                      some (pr.1, pr.2, nv)
                    else none
                | none => none) rest := by
            have h1 := ih nrest hkr hndr
            rw [fieldUpdates] at h1
            rw [h1]
            apply filterMap_congr_mem
            intro pr hpr
            have hne2 : (q.1 == pr.1) = false := by
              rw [beq_eq_false_iff_ne]
              intro he
              apply hnotin
              have hpe : pr.1 = p.1 := by rw [← he, ← hk0]
              rw [← hpe]
              exact List.mem_map.mpr ⟨pr, hpr, rfl⟩
            rw [rlookup_cons, hne2]
            simp
          rw [fieldUpdates, List.zip_cons_cons, List.filterMap_cons,
            List.filterMap_cons]
          simp only [hhead]
          by_cases hc : (!(pks.contains p.1) && !(p.2 == q.2)) = true
          · rw [if_pos hc]
            exact congrArg (List.cons (p.1, p.2, q.2)) htail
          · rw [if_neg hc]
            exact htail

/-- C10: the update step of `update_part_table` walks each (old record, new
record) pair positionally via `zip(old_record.items(), new_record.items())`;
when the two records enumerate the same columns in the same order this updates
each differing non-key field `f` from `old[f]` to `new[f]`; when the orders
differ, a field can be compared with — and written with — the value of a
*different* column: in the concrete misordered pair below, field `a` is
updated to `"p"`, the value of column `b` in the new record, although the new
record's own `a` value is `"q"`. -/
theorem c10_zip_update :
    (∀ (pks : List String) (old nw : Rec), keysOf old = keysOf nw →
       (keysOf old).Nodup →
       fieldUpdates pks old nw = old.filterMap (fun pr =>
         match rlookup nw pr.1 with
         | some nv =>
             if !(pks.contains pr.1) && !(pr.2 == nv) then some (pr.1, pr.2, nv)
             else none
         | none => none))
  ∧ fieldUpdates ["id"] [("id", .vint 1), ("a", .vstr "x"), ("b", .vstr "y")]
      [("id", .vint 1), ("b", .vstr "p"), ("a", .vstr "q")] =
      [("a", .vstr "x", .vstr "p"), ("b", .vstr "y", .vstr "q")]
  ∧ rlookup [("id", .vint 1), ("b", .vstr "p"), ("a", .vstr "q")] "a" =
      some (.vstr "q") :=
  ⟨fun pks old nw hkeys hnd => fieldUpdates_lookup pks old nw hkeys hnd,
   rfl, rfl⟩

/-- C10 witness: the same-order reading applied to a concrete pair. -/
theorem c10_witness :
    fieldUpdates ["id"] [("id", .vint 1), ("a", .vstr "x")]
      [("id", .vint 1), ("a", .vstr "q")] =
      ([("id", Value.vint 1), ("a", Value.vstr "x")] : Rec).filterMap (fun pr =>
        match rlookup [("id", Value.vint 1), ("a", Value.vstr "q")] pr.1 with
        | some nv =>
            if !((["id"] : List String).contains pr.1) && !(pr.2 == nv) then
              some (pr.1, pr.2, nv)
            else none
        | none => none) :=
  c10_zip_update.1 ["id"] [("id", .vint 1), ("a", .vstr "x")]
    [("id", .vint 1), ("a", .vstr "q")] (by decide) (by decide)

/-- C1 witness: the characterization applied to the spec's concrete example,
at the deleted key `{id: 1}`. -/
theorem c1_witness :
    dictMem [("id", .vint 1)] (pks_to_be_deleted exC1pks exC1old exC1new) = true ↔
      (dictMem [("id", .vint 1)] (exC1old.map (projectPK exC1pks)) = true ∧
       dictMem [("id", .vint 1)] (exC1new.map (projectPK exC1pks)) = false) :=
  (c1_diff_exact exC1pks exC1old exC1new (by decide)).1 [("id", .vint 1)]

end DJDash
